import Mathlib

/-!
Verification development for the ALA data service backend (`server.js` and
`config.js`).

The JavaScript source is shallowly embedded: each upstream GraphQL entity
store is modelled as the ordered list of records the subgraph would serve,
a page request with `first: 1000, orderBy: timestamp, orderDirection: asc,
where: { timestamp_gte: cursor }` is modelled as taking the first 1000
records of the store whose timestamp is at least the cursor, and the
`while (true)` pagination loops of `fetchSwapsWithPagination`,
`fetchMintsWithPagination`, `fetchBurnsWithPagination`,
`fetchPoolStateByBlock` and `fetchCollects` are modelled as one generic
fuel-indexed recursion (`paginateAux`) parameterised by the timestamp
projection used for the cursor advance.  Timestamps are integers (seconds),
JS numbers used in derived-field arithmetic are modelled as exact rationals,
and record fields that are only copied verbatim into the output (addresses,
hashes, token amounts not used by any control flow) are abstracted into a
numeric identifier `rid` standing for the rest of the record.
-/

/-- Fixed page size of every subgraph query (`first: 1000` in `server.js`). -/
def pageSize : Nat := 1000

/-- `config.maxDays` from `config.js`. -/
def maxDays : Int := 30

/-- `config.ampMaxRows` from `config.js` (default `'10000'`). -/
def ampMaxRows : Nat := 10000

/-- A swap record as selected by the `GetSwaps` query: the fields the code
reads (`timestamp`, `transaction.gasUsed`, `transaction.gasPrice`); `rid`
abstracts the identifier and the passthrough columns. -/
structure SwapRec where
  rid : Nat
  timestamp : Int
  gasUsed : ℚ
  gasPrice : ℚ
deriving DecidableEq

/-- A mint record as selected by the `GetMints` query (fields the code
reads; `rid` abstracts identifier and passthrough columns). -/
structure MintRec where
  rid : Nat
  timestamp : Int
  tickLower : Int
  tickUpper : Int
  amount : ℚ
  gasUsed : ℚ
  gasPrice : ℚ
deriving DecidableEq

/-- A burn record as selected by the `GetBurns` query. -/
structure BurnRec where
  rid : Nat
  timestamp : Int
  tickLower : Int
  tickUpper : Int
  amount : ℚ
  gasUsed : ℚ
  gasPrice : ℚ
deriving DecidableEq

/-- A per-swap pool-state snapshot as selected by `GetPoolStateBySwap`
(the loop only reads `timestamp`; the snapshot payload is abstracted). -/
structure PoolStateRec where
  rid : Nat
  timestamp : Int
deriving DecidableEq

/-- A position record as selected by `GetPositions` (no time field is used
by any control flow). -/
structure PositionRec where
  rid : Nat
  tickLower : Int
  tickUpper : Int
deriving DecidableEq

/-- A collect record as selected by `GetCollects`: the cursor advance reads
`transaction.timestamp`. -/
structure CollectRec where
  rid : Nat
  txTimestamp : Int
deriving DecidableEq

/-- A tick record as selected by `GetTicks`. -/
structure TickRec where
  rid : Nat
  tickIdx : Int
deriving DecidableEq

/-- One page request: the subgraph returns the first `pageSize` records of
the (ascending-ordered) store `db` whose timestamp is `≥ cursor`
(`where: { timestamp_gte: cursor }, first: 1000`). -/
def fetchPage (ts : α → Int) (db : List α) (cursor : Int) : List α :=
  (db.filter (fun r => decide (cursor ≤ ts r))).take pageSize

/-- The `while (true)` pagination loop shared verbatim by the five paginated
fetchers in `server.js`:

1. request a page at the current cursor;
2. if the page is empty, stop;
3. append the page to the accumulator;
4. set the cursor to the last record's timestamp plus one;
5. if the page was shorter than `pageSize`, stop; otherwise repeat.

Returns the accumulated records together with the trace of requests
(each request's cursor and the page it returned).  `fuel` bounds the number
of iterations; `fetchWithPagination` supplies enough fuel for any store. -/
def paginateAux (ts : α → Int) : Nat → List α → Int → List α × List (Int × List α)
  | 0, _, _ => ([], [])
  | fuel + 1, db, cursor =>
    let page := fetchPage ts db cursor
    if page.length = 0 then
      ([], [(cursor, page)])
    else if page.length < pageSize then
      (page, [(cursor, page)])
    else
      let next := (page.getLast?.map ts).getD 0 + 1
      let r := paginateAux ts fuel db next
      (page ++ r.1, (cursor, page) :: r.2)

/-- Entry point of the pagination loop, started at `minTimestamp` with
enough fuel to exhaust any store. -/
def fetchWithPagination (ts : α → Int) (db : List α) (minTimestamp : Int) :
    List α × List (Int × List α) :=
  paginateAux ts (db.length + 1) db minTimestamp

/-- `fetchSwapsWithPagination(poolAddress, minTimestamp)`, over the swap
store of the resolved pool. -/
def fetchSwapsWithPagination (db : List SwapRec) (minTimestamp : Int) :
    List SwapRec × List (Int × List SwapRec) :=
  fetchWithPagination SwapRec.timestamp db minTimestamp

/-- `fetchMintsWithPagination(poolAddress, minTimestamp)`. -/
def fetchMintsWithPagination (db : List MintRec) (minTimestamp : Int) :
    List MintRec × List (Int × List MintRec) :=
  fetchWithPagination MintRec.timestamp db minTimestamp

/-- `fetchBurnsWithPagination(poolAddress, minTimestamp)`. -/
def fetchBurnsWithPagination (db : List BurnRec) (minTimestamp : Int) :
    List BurnRec × List (Int × List BurnRec) :=
  fetchWithPagination BurnRec.timestamp db minTimestamp

/-- `fetchPoolStateByBlock(poolAddress, minTimestamp)`: the same loop over
the swap stream, accumulating the per-swap pool snapshots. -/
def fetchPoolStateByBlock (db : List PoolStateRec) (minTimestamp : Int) :
    List PoolStateRec × List (Int × List PoolStateRec) :=
  fetchWithPagination PoolStateRec.timestamp db minTimestamp

/-- `fetchCollects(poolAddress, minTimestamp)`: same loop, but the cursor
advance reads `transaction.timestamp` of the last record. -/
def fetchCollects (db : List CollectRec) (minTimestamp : Int) :
    List CollectRec × List (Int × List CollectRec) :=
  fetchWithPagination CollectRec.txTimestamp db minTimestamp

/-- `fetchPositions(poolAddress)`: a single `GetPositions` request with
`first: 1000` and no time filter; the response (the first `pageSize`
records of the position store) is returned as-is. -/
def fetchPositions (store : List PositionRec) : List PositionRec :=
  store.take pageSize

/-- `fetchTicks(poolAddress)`: a single `GetTicks` request with
`first: 1000` and no time filter. -/
def fetchTicks (store : List TickRec) : List TickRec :=
  store.take pageSize

/-- Derived field computed by the normalizers:
`gasCostEth = parseFloat(gasUsed) * parseFloat(gasPrice) / 1e18`.
JS floating-point numbers are modelled as exact rationals. -/
def gasCostEth (gasUsed gasPrice : ℚ) : ℚ :=
  gasUsed * gasPrice / 1e18

/-- A normalized table: the fixed column list plus one output row per line.
Rendering rows to delimited text (one line per row, joined under the header)
is abstracted; the row payload type `ρ` keeps the fields the claims need. -/
structure CSVTable (ρ : Type) where
  header : List String
  rows : List ρ
deriving DecidableEq

/-- Output row of `processSwapsToCSV` (fields relevant to the claims;
passthrough columns abstracted into `swap_id`). -/
structure SwapRow where
  swap_id : Nat
  timestamp : Int
  gas_used : ℚ
  gas_price : ℚ
  gas_cost_eth : ℚ
deriving DecidableEq

/-- The row `processSwapsToCSV` builds for one swap record. -/
def swapToRow (s : SwapRec) : SwapRow :=
  { swap_id := s.rid
    timestamp := s.timestamp
    gas_used := s.gasUsed
    gas_price := s.gasPrice
    gas_cost_eth := gasCostEth s.gasUsed s.gasPrice }

/-- Column list of `swaps.csv` (identical in both branches of the source). -/
def swapsHeader : List String :=
  ["swap_id", "block_number", "timestamp", "timestamp_readable", "tx_hash",
   "log_index", "sender", "recipient", "origin", "amount0", "amount1",
   "amount_usd", "sqrt_price_x96", "tick", "gas_used", "gas_price",
   "gas_cost_eth"]

/-- `processSwapsToCSV(swaps)`: one data row per input record; the source's
empty-input branch returns the same header with no rows, which coincides
with mapping over the empty list. -/
def processSwapsToCSV (swaps : List SwapRec) : CSVTable SwapRow :=
  { header := swapsHeader, rows := swaps.map swapToRow }

/-- The `event_type` tag of a merged liquidity-action row. -/
inductive LPEventType
  | MINT
  | BURN
deriving DecidableEq

/-- A processed liquidity-action object as pushed by
`processLPActionsToCSV` (fields relevant to the claims). -/
structure LPRow where
  event_id : Nat
  event_type : LPEventType
  timestamp : Int
  tick_lower : Int
  tick_upper : Int
  tick_range : Int
  amount : ℚ
  gas_used : ℚ
  gas_price : ℚ
  gas_cost_eth : ℚ
deriving DecidableEq

/-- The object `processLPActionsToCSV` pushes for a mint
(`event_type: 'MINT'`, `tick_range = tickUpper - tickLower`). -/
def mintToRow (m : MintRec) : LPRow :=
  { event_id := m.rid
    event_type := .MINT
    timestamp := m.timestamp
    tick_lower := m.tickLower
    tick_upper := m.tickUpper
    tick_range := m.tickUpper - m.tickLower
    amount := m.amount
    gas_used := m.gasUsed
    gas_price := m.gasPrice
    gas_cost_eth := gasCostEth m.gasUsed m.gasPrice }

/-- The object `processLPActionsToCSV` pushes for a burn
(`event_type: 'BURN'`). -/
def burnToRow (b : BurnRec) : LPRow :=
  { event_id := b.rid
    event_type := .BURN
    timestamp := b.timestamp
    tick_lower := b.tickLower
    tick_upper := b.tickUpper
    tick_range := b.tickUpper - b.tickLower
    amount := b.amount
    gas_used := b.gasUsed
    gas_price := b.gasPrice
    gas_cost_eth := gasCostEth b.gasUsed b.gasPrice }

/-- The comparator `(a, b) => parseInt(a.timestamp) - parseInt(b.timestamp)`
given to `Array.prototype.sort`, as a boolean order. -/
def lpSortLE (a b : LPRow) : Bool :=
  decide (a.timestamp ≤ b.timestamp)

/-- The merged liquidity-action row list: mints mapped first, then burns,
then sorted by timestamp.  `Array.prototype.sort` is stable (ES2019), so it
is modelled by the stable `List.mergeSort`. -/
def processLPActions (mints : List MintRec) (burns : List BurnRec) : List LPRow :=
  ((mints.map mintToRow) ++ (burns.map burnToRow)).mergeSort lpSortLE

/-- Column list of `lp_actions.csv`. -/
def lpActionsHeader : List String :=
  ["event_id", "event_type", "block_number", "timestamp",
   "timestamp_readable", "tx_hash", "log_index", "owner", "sender", "origin",
   "tick_lower", "tick_upper", "tick_range", "amount", "amount0", "amount1",
   "amount_usd", "gas_used", "gas_price", "gas_cost_eth"]

/-- `processLPActionsToCSV(mints, burns)`. -/
def processLPActionsToCSV (mints : List MintRec) (burns : List BurnRec) :
    CSVTable LPRow :=
  { header := lpActionsHeader, rows := processLPActions mints burns }

/-- Column list of `pool_stats.csv`. -/
def poolStatsHeader : List String :=
  ["block_number", "timestamp", "timestamp_readable", "liquidity",
   "sqrt_price", "tick", "token0_price", "token1_price", "tvl_usd",
   "tvl_token0", "tvl_token1", "volume_usd", "volume_token0",
   "volume_token1", "fees_usd", "collected_fees_token0",
   "collected_fees_token1", "fee_tier", "tx_count", "token0_symbol",
   "token0_decimals", "token1_symbol", "token1_decimals"]

/-- `processPoolStatsToCSV(poolStates)`: one row per snapshot; per-record
string formatting is abstracted, keeping the record as the row payload. -/
def processPoolStatsToCSV (poolStates : List PoolStateRec) :
    CSVTable PoolStateRec :=
  { header := poolStatsHeader, rows := poolStates }

/-- Column list of `positions.csv`. -/
def positionsHeader : List String :=
  ["position_id", "owner", "tick_lower", "tick_upper", "liquidity",
   "deposited_token0", "deposited_token1", "withdrawn_token0",
   "withdrawn_token1", "collected_fees_token0", "collected_fees_token1",
   "fee_growth_inside_0", "fee_growth_inside_1", "created_timestamp",
   "created_timestamp_readable"]

/-- `processPositionsToCSV(positions)`: one row per position record. -/
def processPositionsToCSV (positions : List PositionRec) :
    CSVTable PositionRec :=
  { header := positionsHeader, rows := positions }

/-- Column list of `collects.csv`. -/
def collectsHeader : List String :=
  ["collect_id", "timestamp", "timestamp_readable", "tx_hash", "log_index",
   "owner", "tick_lower", "tick_upper", "amount0", "amount1", "amount_usd"]

/-- `processCollectsToCSV(collects)`: one row per collect record. -/
def processCollectsToCSV (collects : List CollectRec) : CSVTable CollectRec :=
  { header := collectsHeader, rows := collects }

/-- Column list of `ticks.csv`. -/
def ticksHeader : List String :=
  ["tick_idx", "liquidity_gross", "liquidity_net", "price0", "price1",
   "volume_token0", "volume_token1", "volume_usd", "fees_usd",
   "collected_fees_token0", "collected_fees_token1", "collected_fees_usd",
   "fee_growth_outside_0", "fee_growth_outside_1", "created_timestamp",
   "created_block"]

/-- `processTicksToCSV(ticks)`: one row per tick record. -/
def processTicksToCSV (ticks : List TickRec) : CSVTable TickRec :=
  { header := ticksHeader, rows := ticks }

/-- The `for await` consumption loop of `executeAMPQuery`: push the whole
batch, then break if the accumulated length exceeds `config.ampMaxRows`. -/
def consumeBatches : List (List α) → List α → List α
  | [], acc => acc
  | b :: bs, acc =>
    let acc2 := acc ++ b
    if acc2.length > ampMaxRows then acc2 else consumeBatches bs acc2

/-- `executeAMPQuery(sql)`, over the stream of row batches the AMP engine
would produce for the query. -/
def executeAMPQuery (batches : List (List α)) : List α :=
  consumeBatches batches []

/-- Numeric value of a decimal digit character, `none` otherwise. -/
def digitVal (c : Char) : Option Nat :=
  if c.isDigit then some (c.toNat - '0'.toNat) else none

/-- Longest leading run of decimal digits of a character list. -/
def takeDigits : List Char → List Nat
  | [] => []
  | c :: cs =>
    match digitVal c with
    | some d => d :: takeDigits cs
    | none => []

/-- Decimal value of a digit run. -/
def digitsToNat (ds : List Nat) : Nat :=
  ds.foldl (fun a d => a * 10 + d) 0

/-- Magnitude part of `parseInt`: `none` (NaN) when no leading digits. -/
def jsParseIntDigits (cs : List Char) : Option Nat :=
  match takeDigits cs with
  | [] => none
  | ds => some (digitsToNat ds)

/-- Model of the JS builtin `parseInt(s)` in base 10: skip leading spaces,
read an optional sign, then the longest leading run of decimal digits,
ignoring everything after it; `none` models the `NaN` result when no digit
is found.  (Hexadecimal `0x` prefixes and non-space whitespace are not
modelled; no input considered here uses them.) -/
def jsParseInt (s : String) : Option Int :=
  match s.toList.dropWhile (fun c => c = ' ') with
  | '-' :: rest => (jsParseIntDigits rest).map (fun n => -(n : Int))
  | '+' :: rest => (jsParseIntDigits rest).map (fun n => (n : Int))
  | cs => (jsParseIntDigits cs).map (fun n => (n : Int))

/-- The pool metadata `getPoolFromToken` resolves (fields the aggregation
pipeline reads; the rest of the descriptor is abstracted). -/
structure PoolInfo where
  poolAddress : Nat
  tokenSymbol : String
deriving DecidableEq

/-- The in-memory bundle returned by `fetchAllPoolData`. -/
structure Bundle where
  poolInfo : PoolInfo
  swaps : List SwapRec
  mints : List MintRec
  burns : List BurnRec
  poolStates : List PoolStateRec
  positions : List PositionRec
  collects : List CollectRec
  ticks : List TickRec
  daysNum : Int
deriving DecidableEq

/-- The error message thrown by the window validation in
`fetchAllPoolData`. -/
def validationErrorMsg : String :=
  "days must be between 1 and " ++ toString maxDays

/-- `fetchAllPoolData(tokenAddress, days)`.  `resolver` is the outcome of
`getPoolFromToken`; each of the seven upstream parameters is the outcome of
that entity's retrieval source: `.ok db` when the subgraph serves the store
`db`, `.error e` when any underlying request of that stream fails.  The
`Promise.all` join is fail-fast and all-or-nothing; it is determinised here
to surface the first error in array order.  `days` is the raw query-string
value, truncated by `parseInt` before the range check; `nowMs` is
`Date.now()` in milliseconds, and `minTimestamp` is
`Math.floor((nowMs - daysNum*24*60*60*1000)/1000)`. -/
def fetchAllPoolData (resolver : Except String PoolInfo)
    (swapsUp : Except String (List SwapRec))
    (mintsUp : Except String (List MintRec))
    (burnsUp : Except String (List BurnRec))
    (poolStatesUp : Except String (List PoolStateRec))
    (positionsUp : Except String (List PositionRec))
    (collectsUp : Except String (List CollectRec))
    (ticksUp : Except String (List TickRec))
    (days : String) (nowMs : Int) : Except String Bundle :=
  match jsParseInt days with
  | none => .error validationErrorMsg
  | some daysNum =>
    if daysNum < 1 ∨ daysNum > maxDays then .error validationErrorMsg
    else
      match resolver with
      | .error e => .error e
      | .ok poolInfo =>
        let minTimestamp := (nowMs - daysNum * 86400000).fdiv 1000
        match swapsUp with
        | .error e => .error e
        | .ok swapsDb =>
          match mintsUp with
          | .error e => .error e
          | .ok mintsDb =>
            match burnsUp with
            | .error e => .error e
            | .ok burnsDb =>
              match poolStatesUp with
              | .error e => .error e
              | .ok poolStatesDb =>
                match positionsUp with
                | .error e => .error e
                | .ok positionsDb =>
                  match collectsUp with
                  | .error e => .error e
                  | .ok collectsDb =>
                    match ticksUp with
                    | .error e => .error e
                    | .ok ticksDb =>
                      .ok
                        { poolInfo := poolInfo
                          swaps :=
                            (fetchSwapsWithPagination swapsDb minTimestamp).1
                          mints :=
                            (fetchMintsWithPagination mintsDb minTimestamp).1
                          burns :=
                            (fetchBurnsWithPagination burnsDb minTimestamp).1
                          poolStates :=
                            (fetchPoolStateByBlock poolStatesDb minTimestamp).1
                          positions := fetchPositions positionsDb
                          collects :=
                            (fetchCollects collectsDb minTimestamp).1
                          ticks := fetchTicks ticksDb
                          daysNum := daysNum }

/-- The success payload of the `/api/pool-data` route: the six named tables
appended to the ZIP archive plus its filename.  An error response carries
no archive and no tables. -/
structure PoolDataFiles where
  swapsCSV : CSVTable SwapRow
  lpActionsCSV : CSVTable LPRow
  poolStatsCSV : CSVTable PoolStateRec
  positionsCSV : CSVTable PositionRec
  collectsCSV : CSVTable CollectRec
  ticksCSV : CSVTable TickRec
  filename : String

/-- The `/api/pool-data` handler: requires `tokenAddress`, delegates to
`fetchAllPoolData`, and either wraps its error into a single error response
(emitting no table) or processes the bundle into the six tables and the
deterministic filename.  `nowIso` is the sanitised generation timestamp
used in the filename. -/
def poolDataHandler (tokenAddress : Option String)
    (resolver : Except String PoolInfo)
    (swapsUp : Except String (List SwapRec))
    (mintsUp : Except String (List MintRec))
    (burnsUp : Except String (List BurnRec))
    (poolStatesUp : Except String (List PoolStateRec))
    (positionsUp : Except String (List PositionRec))
    (collectsUp : Except String (List CollectRec))
    (ticksUp : Except String (List TickRec))
    (days : String) (nowMs : Int) (nowIso : String) :
    Except String PoolDataFiles :=
  match tokenAddress with
  | none => .error "tokenAddress is required"
  | some _ =>
    match fetchAllPoolData resolver swapsUp mintsUp burnsUp poolStatesUp
        positionsUp collectsUp ticksUp days nowMs with
    | .error e => .error ("Failed to fetch pool data: " ++ e)
    | .ok data =>
      .ok
        { swapsCSV := processSwapsToCSV data.swaps
          lpActionsCSV := processLPActionsToCSV data.mints data.burns
          poolStatsCSV := processPoolStatsToCSV data.poolStates
          positionsCSV := processPositionsToCSV data.positions
          collectsCSV := processCollectsToCSV data.collects
          ticksCSV := processTicksToCSV data.ticks
          filename := "uniswap_v3_" ++ data.poolInfo.tokenSymbol ++ "_" ++
            toString data.daysNum ++ "days_" ++ nowIso ++ ".zip" }

/-- Relation between consecutive trace entries of the pagination loop:
the next request's lower bound is the previous page's last timestamp plus
one, and is strictly above every timestamp of the previous page. -/
def nextCursorRel (ts : α → Int) (a b : Int × List α) : Prop :=
  ∃ h : a.2 ≠ [], b.1 = ts (a.2.getLast h) + 1 ∧ ∀ r ∈ a.2, ts r < b.1

/-- A position store with more records than one page can carry. -/
def bigPositionStore : List PositionRec :=
  (List.range (pageSize + 1)).map (fun i => ⟨i, 0, 0⟩)

/-- A swap store with exactly one full page of records at distinct
timestamps. -/
def fullPageSwapStore : List SwapRec :=
  (List.range pageSize).map (fun i => ⟨i, (i : Int), 0, 0⟩)

theorem ts_le_getLast {ts : α → Int} :
    ∀ {l : List α}, l.Pairwise (fun a b => ts a ≤ ts b) → ∀ (hne : l ≠ []),
      ∀ a ∈ l, ts a ≤ ts (l.getLast hne)
  | [], _, hne => absurd rfl hne
  | [x], _, _ => by
    intro a ha
    rcases List.mem_singleton.mp ha with rfl
    simp [List.getLast]
  | x :: y :: rest, hs, hne => by
    intro a ha
    rw [List.getLast_cons (List.cons_ne_nil y rest)]
    rcases List.mem_cons.mp ha with rfl | ha2
    · exact List.rel_of_pairwise_cons hs (List.getLast_mem (List.cons_ne_nil y rest))
    · exact ts_le_getLast hs.tail (List.cons_ne_nil y rest) a ha2

theorem filter_pivot_split {ts : α → Int} {l : List α} {m : Int}
    (hs : l.Pairwise (fun a b => ts a < ts b)) (hne : l.take pageSize ≠ [])
    (hm : m = ts ((l.take pageSize).getLast hne)) :
    l.filter (fun r => decide (m + 1 ≤ ts r)) = l.drop pageSize := by
  have hsplit := List.take_append_drop pageSize l
  have hpw : (l.take pageSize ++ l.drop pageSize).Pairwise
      (fun a b => ts a < ts b) := by
    rw [hsplit]; exact hs
  obtain ⟨h1, _, h3⟩ := List.pairwise_append.mp hpw
  conv_lhs => rw [← hsplit]
  rw [List.filter_append]
  have hA : (l.take pageSize).filter
      (fun r => decide (m + 1 ≤ ts r)) = [] := by
    apply List.filter_eq_nil_iff.mpr
    intro a ha
    have hle := ts_le_getLast (h1.imp (fun h => le_of_lt h)) hne a ha
    simp only [decide_eq_true_eq]
    omega
  have hB : (l.drop pageSize).filter
      (fun r => decide (m + 1 ≤ ts r))
      = l.drop pageSize := by
    apply List.filter_eq_self.mpr
    intro b hb
    have hlt := h3 _ (List.getLast_mem hne) b hb
    simp only [decide_eq_true_eq]
    omega
  rw [hA, hB, List.nil_append]


theorem paginateAux_spec {α : Type} {ts : α → Int} :
    ∀ (fuel : Nat) (cursor : Int) (db : List α),
      db.Pairwise (fun a b => ts a < ts b) →
      (db.filter (fun r => decide (cursor ≤ ts r))).length < fuel * pageSize →
      (paginateAux ts fuel db cursor).1
          = db.filter (fun r => decide (cursor ≤ ts r)) ∧
      (paginateAux ts fuel db cursor).2.length
          = (db.filter (fun r => decide (cursor ≤ ts r))).length / pageSize + 1
  | 0, cursor, db, _, hf => by simp at hf
  | fuel + 1, cursor, db, hs, hf => by
    have hp0 : 0 < pageSize := by norm_num [pageSize]
    have hpage : fetchPage ts db cursor
        = (db.filter (fun r => decide (cursor ≤ ts r))).take pageSize := rfl
    set F := db.filter (fun r => decide (cursor ≤ ts r)) with hF
    rcases Nat.lt_or_ge F.length pageSize with hlt | hge
    · -- the first page is the final (possibly empty, possibly partial) page
      have htake : F.take pageSize = F := List.take_of_length_le (le_of_lt hlt)
      rw [paginateAux]
      simp only [hpage, htake]
      rcases Nat.eq_zero_or_pos F.length with h0 | h0
      · rw [if_pos h0]
        have hFnil : F = [] := List.length_eq_zero.mp h0
        simp [hFnil, pageSize]
      · rw [if_neg (Nat.pos_iff_ne_zero.mp h0), if_pos hlt]
        simp [Nat.div_eq_of_lt hlt]
    · -- a full page: recurse past the last timestamp of the page
      have hne : F.take pageSize ≠ [] := by
        intro hnil
        rcases List.take_eq_nil_iff.mp hnil with h | h
        · omega
        · rw [h] at hge
          simp at hge
          omega
      have hplen : (F.take pageSize).length = pageSize := by
        simp [List.length_take, Nat.min_eq_left hge]
      have hlast : (F.take pageSize).getLast? =
          some ((F.take pageSize).getLast hne) :=
        List.getLast?_eq_getLast _ hne
      have hnz : ¬ (F.take pageSize).length = 0 := by omega
      have hnlt : ¬ (F.take pageSize).length < pageSize := by omega
      obtain ⟨m, hm⟩ : ∃ m, m = ts ((F.take pageSize).getLast hne) := ⟨_, rfl⟩
      have hmemF : ∀ x ∈ F, cursor ≤ ts x := by
        intro x hx
        rw [hF] at hx
        have := (List.mem_filter.mp hx).2
        simpa using this
      have hcm : cursor ≤ m := by
        rw [hm]
        exact hmemF _ (List.take_subset _ _ (List.getLast_mem hne))
      have hsF : F.Pairwise (fun a b => ts a < ts b) := by
        rw [hF]
        exact hs.filter _
      have hstep : db.filter (fun r => decide (m + 1 ≤ ts r)) = F.drop pageSize := by
        have h1 : db.filter (fun r => decide (m + 1 ≤ ts r))
            = F.filter (fun r => decide (m + 1 ≤ ts r)) := by
          conv_rhs => rw [hF]
          rw [List.filter_filter]
          apply List.filter_congr
          intro a _
          by_cases hq : m + 1 ≤ ts a
          · have hca : cursor ≤ ts a := by omega
            simp [hq, hca]
          · simp [hq]
        rw [h1]
        exact filter_pivot_split hsF hne hm
      have hmul : (fuel + 1) * pageSize = fuel * pageSize + pageSize := by ring
      have hrec := paginateAux_spec fuel (m + 1) db hs
        (by
          rw [hstep]
          simp only [List.length_drop]
          omega)
      rw [hstep] at hrec
      rw [paginateAux]
      simp only [hpage, if_neg hnz, if_neg hnlt, hlast, Option.map_some',
        Option.getD_some, ← hm]
      constructor
      · rw [hrec.1, List.take_append_drop]
      · simp only [List.length_cons]
        rw [hrec.2]
        simp only [List.length_drop]
        have hdiv := Nat.div_eq_sub_div hp0 hge
        omega

theorem fetchWithPagination_spec {α : Type} (ts : α → Int) (db : List α)
    (c : Int) (hs : db.Pairwise (fun a b => ts a < ts b)) :
    (fetchWithPagination ts db c).1 = db.filter (fun r => decide (c ≤ ts r)) ∧
    (fetchWithPagination ts db c).1.Pairwise (fun a b => ts a ≤ ts b) ∧
    (fetchWithPagination ts db c).2.length =
      (db.filter (fun r => decide (c ≤ ts r))).length / pageSize + 1 := by
  have hp0 : 0 < pageSize := by norm_num [pageSize]
  have hlen : (db.filter (fun r => decide (c ≤ ts r))).length ≤ db.length :=
    List.length_filter_le _ _
  have hmul : (db.length + 1) * 1 ≤ (db.length + 1) * pageSize :=
    Nat.mul_le_mul_left _ hp0
  have hb : (db.filter (fun r => decide (c ≤ ts r))).length
      < (db.length + 1) * pageSize := by omega
  obtain ⟨h1, h2⟩ := paginateAux_spec (db.length + 1) c db hs hb
  refine ⟨h1, ?_, h2⟩
  show List.Pairwise _ (paginateAux ts (db.length + 1) db c).1
  rw [h1]
  exact (hs.imp (fun h => le_of_lt h)).filter _

theorem paginateAux_trace_head {α : Type} (ts : α → Int) (fuel : Nat)
    (db : List α) (cursor : Int) :
    (paginateAux ts (fuel + 1) db cursor).2.head?
      = some (cursor, fetchPage ts db cursor) := by
  simp only [paginateAux]
  split
  · rfl
  · split
    · rfl
    · rfl

theorem paginateAux_trace_chain {α : Type} {ts : α → Int} :
    ∀ (fuel : Nat) (cursor : Int) (db : List α),
      db.Pairwise (fun a b => ts a ≤ ts b) →
      (paginateAux ts fuel db cursor).2.Chain' (nextCursorRel ts)
  | 0, cursor, db, _ => by simp [paginateAux]
  | fuel + 1, cursor, db, hs => by
    have hpw : (fetchPage ts db cursor).Pairwise (fun a b => ts a ≤ ts b) :=
      List.Pairwise.sublist (List.take_sublist _ _) (hs.filter _)
    simp only [paginateAux]
    by_cases h0 : (fetchPage ts db cursor).length = 0
    · simp only [if_pos h0]
      exact List.chain'_singleton _
    · by_cases hlt : (fetchPage ts db cursor).length < pageSize
      · simp only [if_neg h0, if_pos hlt]
        exact List.chain'_singleton _
      · simp only [if_neg h0, if_neg hlt]
        apply List.chain'_cons'.mpr
        refine ⟨?_, paginateAux_trace_chain fuel _ db hs⟩
        intro b hb
        have hne : fetchPage ts db cursor ≠ [] := by
          intro h
          rw [h] at h0
          simp at h0
        have hlast : (fetchPage ts db cursor).getLast? =
            some ((fetchPage ts db cursor).getLast hne) :=
          List.getLast?_eq_getLast _ hne
        cases fuel with
        | zero =>
          simp [paginateAux] at hb
        | succ fuel2 =>
          rw [paginateAux_trace_head] at hb
          have hbeq : (((fetchPage ts db cursor).getLast?.map ts).getD 0 + 1,
              fetchPage ts db
                (((fetchPage ts db cursor).getLast?.map ts).getD 0 + 1)) = b := by
            simpa using hb
          rw [← hbeq]
          refine ⟨hne, ?_, ?_⟩
          · simp [hlast]
          · intro r hr
            have hle := ts_le_getLast hpw hne r hr
            simp only [hlast, Option.map_some', Option.getD_some]
            omega

set_option maxRecDepth 100000 in
/-- C1, counterexample: the claim "the paginator issues exactly ceil(N/P)
page requests" fails on the code.  For a window holding exactly N = 1000 =
P records the loop issues 2 requests (the full page, then the empty
confirmation page), not ceil(1000/1000) = 1; for N = 0 it issues 1 request,
not 0. -/
theorem pagination_requests_counterexample :
    fullPageSwapStore.length = pageSize ∧
    ¬ ((fetchSwapsWithPagination fullPageSwapStore 0).2.length
        = (fullPageSwapStore.length + pageSize - 1) / pageSize) ∧
    ¬ ((fetchSwapsWithPagination ([] : List SwapRec) 0).2.length
        = (0 + pageSize - 1) / pageSize) := by
  refine ⟨by decide, by decide, by decide⟩

/-- C1 (amended): for every paginated stream over a store whose timestamps
are strictly increasing, the paginator returns exactly the N records of the
time window, in ascending timestamp order, and issues exactly
`N / P + 1` page requests (`ceil(N/P)` when P does not divide N, one more
than `N/P` when it does, including one request for N = 0). -/
theorem pagination_spec_amended :
    (∀ (db : List SwapRec) (c : Int),
      db.Pairwise (fun a b => a.timestamp < b.timestamp) →
      (fetchSwapsWithPagination db c).1
          = db.filter (fun r => decide (c ≤ r.timestamp)) ∧
      (fetchSwapsWithPagination db c).1.Pairwise
          (fun a b => a.timestamp ≤ b.timestamp) ∧
      (fetchSwapsWithPagination db c).2.length
          = (db.filter (fun r => decide (c ≤ r.timestamp))).length / pageSize
              + 1) ∧
    (∀ (db : List MintRec) (c : Int),
      db.Pairwise (fun a b => a.timestamp < b.timestamp) →
      (fetchMintsWithPagination db c).1
          = db.filter (fun r => decide (c ≤ r.timestamp)) ∧
      (fetchMintsWithPagination db c).1.Pairwise
          (fun a b => a.timestamp ≤ b.timestamp) ∧
      (fetchMintsWithPagination db c).2.length
          = (db.filter (fun r => decide (c ≤ r.timestamp))).length / pageSize
              + 1) ∧
    (∀ (db : List BurnRec) (c : Int),
      db.Pairwise (fun a b => a.timestamp < b.timestamp) →
      (fetchBurnsWithPagination db c).1
          = db.filter (fun r => decide (c ≤ r.timestamp)) ∧
      (fetchBurnsWithPagination db c).1.Pairwise
          (fun a b => a.timestamp ≤ b.timestamp) ∧
      (fetchBurnsWithPagination db c).2.length
          = (db.filter (fun r => decide (c ≤ r.timestamp))).length / pageSize
              + 1) ∧
    (∀ (db : List PoolStateRec) (c : Int),
      db.Pairwise (fun a b => a.timestamp < b.timestamp) →
      (fetchPoolStateByBlock db c).1
          = db.filter (fun r => decide (c ≤ r.timestamp)) ∧
      (fetchPoolStateByBlock db c).1.Pairwise
          (fun a b => a.timestamp ≤ b.timestamp) ∧
      (fetchPoolStateByBlock db c).2.length
          = (db.filter (fun r => decide (c ≤ r.timestamp))).length / pageSize
              + 1) ∧
    (∀ (db : List CollectRec) (c : Int),
      db.Pairwise (fun a b => a.txTimestamp < b.txTimestamp) →
      (fetchCollects db c).1
          = db.filter (fun r => decide (c ≤ r.txTimestamp)) ∧
      (fetchCollects db c).1.Pairwise
          (fun a b => a.txTimestamp ≤ b.txTimestamp) ∧
      (fetchCollects db c).2.length
          = (db.filter (fun r => decide (c ≤ r.txTimestamp))).length / pageSize
              + 1) :=
  ⟨fun db c hs => fetchWithPagination_spec SwapRec.timestamp db c hs,
   fun db c hs => fetchWithPagination_spec MintRec.timestamp db c hs,
   fun db c hs => fetchWithPagination_spec BurnRec.timestamp db c hs,
   fun db c hs => fetchWithPagination_spec PoolStateRec.timestamp db c hs,
   fun db c hs => fetchWithPagination_spec CollectRec.txTimestamp db c hs⟩

/-- Witness for the amended C1 theorem at a concrete two-record store. -/
theorem pagination_spec_amended_witness :
    List.Pairwise (fun a b => a.timestamp < b.timestamp)
        [(⟨0, 5, 0, 0⟩ : SwapRec), ⟨1, 9, 0, 0⟩] ∧
    ((fetchSwapsWithPagination [⟨0, 5, 0, 0⟩, ⟨1, 9, 0, 0⟩] 6).1
        = List.filter (fun r : SwapRec => decide ((6 : Int) ≤ r.timestamp))
            [⟨0, 5, 0, 0⟩, ⟨1, 9, 0, 0⟩] ∧
      (fetchSwapsWithPagination [⟨0, 5, 0, 0⟩, ⟨1, 9, 0, 0⟩] 6).1.Pairwise
          (fun a b => a.timestamp ≤ b.timestamp) ∧
      (fetchSwapsWithPagination [⟨0, 5, 0, 0⟩, ⟨1, 9, 0, 0⟩] 6).2.length
          = (List.filter (fun r : SwapRec => decide ((6 : Int) ≤ r.timestamp))
              [⟨0, 5, 0, 0⟩, ⟨1, 9, 0, 0⟩]).length / pageSize + 1) :=
  ⟨by decide, pagination_spec_amended.1 [⟨0, 5, 0, 0⟩, ⟨1, 9, 0, 0⟩] 6 (by decide)⟩

/-- C3: for every paginated stream, each successive page request's
lower-bound timestamp is the previous page's last timestamp plus one and is
strictly greater than every timestamp of the previous page (its maximum,
since pages are ascending), for stores sorted ascending by the cursor
timestamp. -/
theorem cursor_monotonicity :
    (∀ (db : List SwapRec) (c : Int),
      db.Pairwise (fun a b => a.timestamp ≤ b.timestamp) →
      (fetchSwapsWithPagination db c).2.Chain'
        (nextCursorRel SwapRec.timestamp)) ∧
    (∀ (db : List MintRec) (c : Int),
      db.Pairwise (fun a b => a.timestamp ≤ b.timestamp) →
      (fetchMintsWithPagination db c).2.Chain'
        (nextCursorRel MintRec.timestamp)) ∧
    (∀ (db : List BurnRec) (c : Int),
      db.Pairwise (fun a b => a.timestamp ≤ b.timestamp) →
      (fetchBurnsWithPagination db c).2.Chain'
        (nextCursorRel BurnRec.timestamp)) ∧
    (∀ (db : List PoolStateRec) (c : Int),
      db.Pairwise (fun a b => a.timestamp ≤ b.timestamp) →
      (fetchPoolStateByBlock db c).2.Chain'
        (nextCursorRel PoolStateRec.timestamp)) ∧
    (∀ (db : List CollectRec) (c : Int),
      db.Pairwise (fun a b => a.txTimestamp ≤ b.txTimestamp) →
      (fetchCollects db c).2.Chain'
        (nextCursorRel CollectRec.txTimestamp)) :=
  ⟨fun db c hs => paginateAux_trace_chain (db.length + 1) c db hs,
   fun db c hs => paginateAux_trace_chain (db.length + 1) c db hs,
   fun db c hs => paginateAux_trace_chain (db.length + 1) c db hs,
   fun db c hs => paginateAux_trace_chain (db.length + 1) c db hs,
   fun db c hs => paginateAux_trace_chain (db.length + 1) c db hs⟩

set_option maxRecDepth 100000 in
/-- Witness for the C3 theorem at a store that forces two page requests. -/
theorem cursor_monotonicity_witness :
    fullPageSwapStore.Pairwise (fun a b => a.timestamp ≤ b.timestamp) ∧
    (fetchSwapsWithPagination fullPageSwapStore 0).2.Chain'
      (nextCursorRel SwapRec.timestamp) := by
  have h0 : (List.range pageSize).Pairwise
      (fun a b : Nat => (a : Int) ≤ (b : Int)) :=
    (List.pairwise_lt_range pageSize).imp
      (fun h => by exact_mod_cast Nat.le_of_lt h)
  have hs : fullPageSwapStore.Pairwise
      (fun a b => a.timestamp ≤ b.timestamp) := by
    unfold fullPageSwapStore
    exact List.pairwise_map.mpr h0
  exact ⟨hs, cursor_monotonicity.1 fullPageSwapStore 0 hs⟩

/-- C2, counterexample: `fetchPositions` issues a single request with
`first: 1000`, so a pool with 1001 positions does not get its entire
position set returned. -/
theorem positions_full_fetch_counterexample :
    bigPositionStore.length = pageSize + 1 ∧
    fetchPositions bigPositionStore ≠ bigPositionStore := by
  constructor
  · simp [bigPositionStore]
  · intro h
    have hl := congrArg List.length h
    simp [fetchPositions, bigPositionStore, List.length_take, pageSize] at hl

/-- C2 (amended): positions and ticks are retrieved by a single fetch with
no time filter, but capped at the fixed page size: the first
`min 1000 N` records are returned, and the entire store is returned exactly
when it holds at most 1000 records. -/
theorem positions_ticks_capped_fetch :
    (∀ store : List PositionRec,
      (fetchPositions store).length = min pageSize store.length ∧
      (fetchPositions store = store ↔ store.length ≤ pageSize)) ∧
    (∀ store : List TickRec,
      (fetchTicks store).length = min pageSize store.length ∧
      (fetchTicks store = store ↔ store.length ≤ pageSize)) := by
  constructor
  all_goals
    intro store
    refine ⟨List.length_take _ _, ⟨fun h => ?_, fun h => List.take_of_length_le h⟩⟩
    have hl := congrArg List.length h
    simp only [fetchPositions, fetchTicks, List.length_take] at hl
    omega

theorem mergeSort_pair {α : Type} {le : α → α → Bool} (a b : α) :
    [a, b].mergeSort le = if le a b then [a, b] else [b, a] := by
  rw [List.mergeSort]
  simp [List.merge]

theorem lpSortLE_trans : ∀ (a b c : LPRow),
    lpSortLE a b → lpSortLE b c → lpSortLE a c := by
  intro a b c hab hbc
  simp only [lpSortLE, decide_eq_true_eq] at *
  omega

theorem lpSortLE_total : ∀ (a b : LPRow), lpSortLE a b || lpSortLE b a := by
  intro a b
  simp only [lpSortLE, Bool.or_eq_true, decide_eq_true_eq]
  omega

/-- C6: the mint and burn collections are merged into one table tagged by
variant, sorted ascending by timestamp across both sources with a stable
sort (every timestamp-ordered sublist of the tagged input, in particular
every run of ties in original relative order, stays a sublist of the
output), and on one mint at timestamp 100 and one burn at timestamp 50 the
merged table lists the burn row first. -/
theorem lp_merge_sorted_stable :
    (∀ (mints : List MintRec) (burns : List BurnRec),
      (processLPActionsToCSV mints burns).rows.Pairwise
          (fun a b => a.timestamp ≤ b.timestamp) ∧
      (processLPActionsToCSV mints burns).rows.Perm
          (mints.map mintToRow ++ burns.map burnToRow) ∧
      (∀ m ∈ mints, (mintToRow m).event_type = LPEventType.MINT) ∧
      (∀ b ∈ burns, (burnToRow b).event_type = LPEventType.BURN) ∧
      (∀ c : List LPRow,
        c.Pairwise (fun a b => a.timestamp ≤ b.timestamp) →
        c.Sublist (mints.map mintToRow ++ burns.map burnToRow) →
        c.Sublist (processLPActionsToCSV mints burns).rows)) ∧
    processLPActions [⟨0, 100, 0, 0, 0, 0, 0⟩] [⟨1, 50, 0, 0, 0, 0, 0⟩]
      = [burnToRow ⟨1, 50, 0, 0, 0, 0, 0⟩,
         mintToRow ⟨0, 100, 0, 0, 0, 0, 0⟩] := by
  constructor
  · intro mints burns
    refine ⟨?_, List.mergeSort_perm _ _, fun m _ => rfl, fun b _ => rfl, ?_⟩
    · have h := List.sorted_mergeSort
        lpSortLE_trans lpSortLE_total
        ((mints.map mintToRow) ++ (burns.map burnToRow))
      exact h.imp (fun hab => by
        simpa [lpSortLE, decide_eq_true_eq] using hab)
    · intro c hc hsub
      apply List.sublist_mergeSort lpSortLE_trans lpSortLE_total ?_ hsub
      exact hc.imp (fun hab => by
        simp only [lpSortLE, decide_eq_true_eq]
        exact hab)
  · show ([mintToRow ⟨0, 100, 0, 0, 0, 0, 0⟩,
        burnToRow ⟨1, 50, 0, 0, 0, 0, 0⟩] : List LPRow).mergeSort lpSortLE
      = [burnToRow ⟨1, 50, 0, 0, 0, 0, 0⟩, mintToRow ⟨0, 100, 0, 0, 0, 0, 0⟩]
    have hcmp : lpSortLE (mintToRow ⟨0, 100, 0, 0, 0, 0, 0⟩)
        (burnToRow ⟨1, 50, 0, 0, 0, 0, 0⟩) = false := by decide
    rw [mergeSort_pair, hcmp]
    simp

/-- Witness for the C6 theorem at the spec's concrete example. -/
theorem lp_merge_sorted_stable_witness :
    (processLPActionsToCSV [⟨0, 100, 0, 0, 0, 0, 0⟩]
        [⟨1, 50, 0, 0, 0, 0, 0⟩]).rows.Pairwise
      (fun a b => a.timestamp ≤ b.timestamp) ∧
    ([burnToRow ⟨1, 50, 0, 0, 0, 0, 0⟩] : List LPRow).Sublist
      (processLPActionsToCSV [⟨0, 100, 0, 0, 0, 0, 0⟩]
        [⟨1, 50, 0, 0, 0, 0, 0⟩]).rows :=
  ⟨(lp_merge_sorted_stable.1 [⟨0, 100, 0, 0, 0, 0, 0⟩]
      [⟨1, 50, 0, 0, 0, 0, 0⟩]).1,
   (lp_merge_sorted_stable.1 [⟨0, 100, 0, 0, 0, 0, 0⟩]
      [⟨1, 50, 0, 0, 0, 0, 0⟩]).2.2.2.2
     [burnToRow ⟨1, 50, 0, 0, 0, 0, 0⟩]
     (by decide)
     ((List.Sublist.refl _).cons _)⟩

/-- C7: every CSV producer emits exactly one data row per input record
(for the merged liquidity-action table, one per mint plus one per burn);
zero input records yield a header-only table carrying the full fixed
column list, never an error or an absent table. -/
theorem normalizer_row_count_identity :
    (∀ swaps : List SwapRec,
      (processSwapsToCSV swaps).rows.length = swaps.length ∧
      (processSwapsToCSV swaps).header = swapsHeader) ∧
    ((processSwapsToCSV []).rows = [] ∧ swapsHeader.length = 17) ∧
    (∀ (mints : List MintRec) (burns : List BurnRec),
      (processLPActionsToCSV mints burns).rows.length
          = mints.length + burns.length ∧
      (processLPActionsToCSV mints burns).header = lpActionsHeader) ∧
    ((processLPActionsToCSV [] []).rows = [] ∧ lpActionsHeader.length = 20) ∧
    (∀ l : List PoolStateRec,
      (processPoolStatsToCSV l).rows.length = l.length ∧
      (processPoolStatsToCSV l).header = poolStatsHeader) ∧
    ((processPoolStatsToCSV []).rows = [] ∧ poolStatsHeader.length = 23) ∧
    (∀ l : List PositionRec,
      (processPositionsToCSV l).rows.length = l.length ∧
      (processPositionsToCSV l).header = positionsHeader) ∧
    ((processPositionsToCSV []).rows = [] ∧ positionsHeader.length = 15) ∧
    (∀ l : List CollectRec,
      (processCollectsToCSV l).rows.length = l.length ∧
      (processCollectsToCSV l).header = collectsHeader) ∧
    ((processCollectsToCSV []).rows = [] ∧ collectsHeader.length = 11) ∧
    (∀ l : List TickRec,
      (processTicksToCSV l).rows.length = l.length ∧
      (processTicksToCSV l).header = ticksHeader) ∧
    ((processTicksToCSV []).rows = [] ∧ ticksHeader.length = 16) := by
  refine ⟨fun swaps => ⟨List.length_map _ _, rfl⟩,
    ⟨rfl, rfl⟩,
    fun mints burns => ⟨?_, rfl⟩,
    ⟨?_, rfl⟩,
    fun l => ⟨rfl, rfl⟩, ⟨rfl, rfl⟩,
    fun l => ⟨rfl, rfl⟩, ⟨rfl, rfl⟩,
    fun l => ⟨rfl, rfl⟩, ⟨rfl, rfl⟩,
    fun l => ⟨rfl, rfl⟩, ⟨rfl, rfl⟩⟩
  · show (processLPActions mints burns).length = mints.length + burns.length
    rw [processLPActions, List.length_mergeSort, List.length_append,
      List.length_map, List.length_map]
  · show processLPActions [] [] = []
    simp [processLPActions]

/-- C9: for every record with gas data the normalizer derives the gas cost
in native currency units as `gasUsed * gasPrice / 1e18`; in particular for
`gasUsed = 100000`, `gasPrice = 2000000000` the derived cost is `0.0002`.
JS doubles are modelled as exact rationals. -/
theorem gas_cost_field :
    (∀ s : SwapRec,
      (swapToRow s).gas_cost_eth = s.gasUsed * s.gasPrice / 1e18) ∧
    (∀ m : MintRec,
      (mintToRow m).gas_cost_eth = m.gasUsed * m.gasPrice / 1e18) ∧
    (∀ b : BurnRec,
      (burnToRow b).gas_cost_eth = b.gasUsed * b.gasPrice / 1e18) ∧
    gasCostEth 100000 2000000000 = 0.0002 := by
  refine ⟨fun s => rfl, fun m => rfl, fun b => rfl, ?_⟩
  norm_num [gasCostEth]

theorem fetchAllPoolData_ok_inv
    (resolver : Except String PoolInfo)
    (swapsUp : Except String (List SwapRec))
    (mintsUp : Except String (List MintRec))
    (burnsUp : Except String (List BurnRec))
    (poolStatesUp : Except String (List PoolStateRec))
    (positionsUp : Except String (List PositionRec))
    (collectsUp : Except String (List CollectRec))
    (ticksUp : Except String (List TickRec))
    (days : String) (nowMs : Int) (b : Bundle)
    (h : fetchAllPoolData resolver swapsUp mintsUp burnsUp poolStatesUp
        positionsUp collectsUp ticksUp days nowMs = .ok b) :
    (∃ p, resolver = .ok p) ∧ (∃ d, swapsUp = .ok d) ∧
    (∃ d, mintsUp = .ok d) ∧ (∃ d, burnsUp = .ok d) ∧
    (∃ d, poolStatesUp = .ok d) ∧ (∃ d, positionsUp = .ok d) ∧
    (∃ d, collectsUp = .ok d) ∧ (∃ d, ticksUp = .ok d) := by
  unfold fetchAllPoolData at h
  cases hj : jsParseInt days with
  | none => rw [hj] at h; simp at h
  | some d =>
    rw [hj] at h
    simp only [] at h
    split at h
    · simp at h
    · rcases resolver with e | p
      · simp at h
      rcases swapsUp with e | sdb
      · simp at h
      rcases mintsUp with e | mdb
      · simp at h
      rcases burnsUp with e | bdb
      · simp at h
      rcases poolStatesUp with e | pdb
      · simp at h
      rcases positionsUp with e | posdb
      · simp at h
      rcases collectsUp with e | cdb
      · simp at h
      rcases ticksUp with e | tdb
      · simp at h
      exact ⟨⟨p, rfl⟩, ⟨sdb, rfl⟩, ⟨mdb, rfl⟩, ⟨bdb, rfl⟩, ⟨pdb, rfl⟩,
        ⟨posdb, rfl⟩, ⟨cdb, rfl⟩, ⟨tdb, rfl⟩⟩

/-- C4: if any one of the seven upstream retrievals errors, the aggregation
(and the route handler built on it) surfaces a single error; no bundle and
no table is produced, regardless of the sibling results. -/
theorem fail_fast_aggregation :
    ∀ (tok : String) (resolver : Except String PoolInfo)
      (swapsUp : Except String (List SwapRec))
      (mintsUp : Except String (List MintRec))
      (burnsUp : Except String (List BurnRec))
      (poolStatesUp : Except String (List PoolStateRec))
      (positionsUp : Except String (List PositionRec))
      (collectsUp : Except String (List CollectRec))
      (ticksUp : Except String (List TickRec))
      (days : String) (nowMs : Int) (nowIso : String),
      ((∃ e, swapsUp = .error e) ∨ (∃ e, mintsUp = .error e) ∨
       (∃ e, burnsUp = .error e) ∨ (∃ e, poolStatesUp = .error e) ∨
       (∃ e, positionsUp = .error e) ∨ (∃ e, collectsUp = .error e) ∨
       (∃ e, ticksUp = .error e)) →
      (∃ e, fetchAllPoolData resolver swapsUp mintsUp burnsUp poolStatesUp
          positionsUp collectsUp ticksUp days nowMs = .error e) ∧
      (∃ e, poolDataHandler (some tok) resolver swapsUp mintsUp burnsUp
          poolStatesUp positionsUp collectsUp ticksUp days nowMs nowIso
          = .error e) := by
  intro tok resolver swapsUp mintsUp burnsUp poolStatesUp positionsUp
    collectsUp ticksUp days nowMs nowIso hup
  have hfa : ∃ e, fetchAllPoolData resolver swapsUp mintsUp burnsUp
      poolStatesUp positionsUp collectsUp ticksUp days nowMs = .error e := by
    rcases hres : fetchAllPoolData resolver swapsUp mintsUp burnsUp
        poolStatesUp positionsUp collectsUp ticksUp days nowMs with e | b
    · exact ⟨e, rfl⟩
    · exfalso
      have hinv := fetchAllPoolData_ok_inv resolver swapsUp mintsUp burnsUp
        poolStatesUp positionsUp collectsUp ticksUp days nowMs b hres
      rcases hup with ⟨e, he⟩ | ⟨e, he⟩ | ⟨e, he⟩ | ⟨e, he⟩ | ⟨e, he⟩ |
        ⟨e, he⟩ | ⟨e, he⟩ <;> rw [he] at hinv <;> simp at hinv
  refine ⟨hfa, ?_⟩
  rcases hfa with ⟨e, he⟩
  refine ⟨"Failed to fetch pool data: " ++ e, ?_⟩
  simp [poolDataHandler, he]

/-- Witness for the C4 theorem: the pool-state snapshot stream errors while
every sibling stream succeeded (the spec's fail-fast scenario). -/
theorem fail_fast_aggregation_witness :
    (∃ e, fetchAllPoolData (.ok ⟨1, "TOK"⟩) (.ok []) (.ok []) (.ok [])
        (.error "boom") (.ok []) (.ok []) (.ok []) "1" 0 = .error e) ∧
    (∃ e, poolDataHandler (some "0xToken") (.ok ⟨1, "TOK"⟩) (.ok [])
        (.ok []) (.ok []) (.error "boom") (.ok []) (.ok []) (.ok []) "1" 0
        "2026-01-01" = .error e) :=
  fail_fast_aggregation "0xToken" (.ok ⟨1, "TOK"⟩) (.ok []) (.ok []) (.ok [])
    (.error "boom") (.ok []) (.ok []) (.ok []) "1" 0 "2026-01-01"
    (Or.inr (Or.inr (Or.inr (Or.inl ⟨"boom", rfl⟩))))

/-- C5: the aggregation entry point truncates the raw `days` value with
`parseInt` and validates the result against `[1, maxDays]` before the pool
is resolved or any upstream result is consumed: every out-of-range (or
unparseable) value yields the validation error whatever the resolver and
streams would return, and every in-range value passes validation. -/
theorem window_validation :
    (∀ (resolver : Except String PoolInfo)
      (swapsUp : Except String (List SwapRec))
      (mintsUp : Except String (List MintRec))
      (burnsUp : Except String (List BurnRec))
      (poolStatesUp : Except String (List PoolStateRec))
      (positionsUp : Except String (List PositionRec))
      (collectsUp : Except String (List CollectRec))
      (ticksUp : Except String (List TickRec))
      (days : String) (nowMs : Int),
      (∀ d, jsParseInt days = some d → d < 1 ∨ d > maxDays) →
      fetchAllPoolData resolver swapsUp mintsUp burnsUp poolStatesUp
        positionsUp collectsUp ticksUp days nowMs
        = .error validationErrorMsg) ∧
    (∀ (poolInfo : PoolInfo) (sdb : List SwapRec) (mdb : List MintRec)
      (bdb : List BurnRec) (pdb : List PoolStateRec)
      (posdb : List PositionRec) (cdb : List CollectRec) (tdb : List TickRec)
      (days : String) (d : Int) (nowMs : Int),
      jsParseInt days = some d → 1 ≤ d → d ≤ maxDays →
      ∃ b, fetchAllPoolData (.ok poolInfo) (.ok sdb) (.ok mdb) (.ok bdb)
          (.ok pdb) (.ok posdb) (.ok cdb) (.ok tdb) days nowMs = .ok b ∧
        b.daysNum = d) := by
  constructor
  · intro resolver swapsUp mintsUp burnsUp poolStatesUp positionsUp
      collectsUp ticksUp days nowMs hout
    unfold fetchAllPoolData
    cases hj : jsParseInt days with
    | none => rfl
    | some d =>
      have hd := hout d hj
      simp only []
      rw [if_pos hd]
  · intro poolInfo sdb mdb bdb pdb posdb cdb tdb days d nowMs hj h1 h2
    have hnot : ¬ (d < 1 ∨ d > maxDays) := by omega
    unfold fetchAllPoolData
    rw [hj]
    simp only []
    rw [if_neg hnot]
    exact ⟨_, rfl, rfl⟩

/-- Witness for the C5 theorem: `days = "31"` is rejected with the
validation error, `days = "7"` passes and the bundle carries the window
length 7. -/
theorem window_validation_witness :
    fetchAllPoolData (.ok ⟨1, "TOK"⟩) (.ok []) (.ok []) (.ok []) (.ok [])
        (.ok []) (.ok []) (.ok []) "31" 0 = .error validationErrorMsg ∧
    (∃ b, fetchAllPoolData (.ok ⟨1, "TOK"⟩) (.ok []) (.ok []) (.ok [])
        (.ok []) (.ok []) (.ok []) (.ok []) "7" 0 = .ok b ∧
      b.daysNum = 7) :=
  ⟨window_validation.1 (.ok ⟨1, "TOK"⟩) (.ok []) (.ok []) (.ok []) (.ok [])
      (.ok []) (.ok []) (.ok []) "31" 0
      (fun d hd => by
        rw [show jsParseInt "31" = some 31 from by decide] at hd
        cases hd
        right
        decide),
   window_validation.2 ⟨1, "TOK"⟩ [] [] [] [] [] [] [] "7" 7 0 (by decide)
     (by decide) (by decide)⟩

/-- C10: the raw `days` query value is integer-truncated by `parseInt`
before the range check, so a fractional value such as `"2.9"` (or one with
trailing garbage such as `"3abc"`) is accepted; the truncated integer 2
passes validation, determines `minTimestamp` for every time-windowed
stream, and is the figure printed into the bundle filename. -/
theorem parseint_truncation :
    jsParseInt "2.9" = some 2 ∧ jsParseInt "3abc" = some 3 ∧
    toString (2 : Int) = "2" ∧
    (∀ (poolInfo : PoolInfo) (sdb : List SwapRec) (mdb : List MintRec)
      (bdb : List BurnRec) (pdb : List PoolStateRec)
      (posdb : List PositionRec) (cdb : List CollectRec) (tdb : List TickRec)
      (nowMs : Int) (nowIso tok : String),
      (∃ b, fetchAllPoolData (.ok poolInfo) (.ok sdb) (.ok mdb) (.ok bdb)
          (.ok pdb) (.ok posdb) (.ok cdb) (.ok tdb) "2.9" nowMs = .ok b ∧
        b.daysNum = 2 ∧
        b.swaps = (fetchSwapsWithPagination sdb
          ((nowMs - 2 * 86400000).fdiv 1000)).1 ∧
        b.collects = (fetchCollects cdb
          ((nowMs - 2 * 86400000).fdiv 1000)).1) ∧
      (∃ files, poolDataHandler (some tok) (.ok poolInfo) (.ok sdb) (.ok mdb)
          (.ok bdb) (.ok pdb) (.ok posdb) (.ok cdb) (.ok tdb) "2.9" nowMs
          nowIso = .ok files ∧
        files.filename = "uniswap_v3_" ++ poolInfo.tokenSymbol ++ "_"
          ++ toString (2 : Int) ++ "days_" ++ nowIso ++ ".zip")) := by
  have h29 : jsParseInt "2.9" = some 2 := by decide
  refine ⟨h29, by decide, by decide, ?_⟩
  intro poolInfo sdb mdb bdb pdb posdb cdb tdb nowMs nowIso tok
  constructor
  · unfold fetchAllPoolData
    rw [h29]
    simp only []
    rw [if_neg (by decide : ¬ ((2 : Int) < 1 ∨ (2 : Int) > maxDays))]
    exact ⟨_, rfl, rfl, rfl, rfl⟩
  · unfold poolDataHandler fetchAllPoolData
    rw [h29]
    simp only []
    rw [if_neg (by decide : ¬ ((2 : Int) < 1 ∨ (2 : Int) > maxDays))]
    exact ⟨_, rfl, rfl⟩

/-- C8, counterexample: a single batch of `ampMaxRows + 1` rows is pushed
whole before the cutoff check runs, so the returned result exceeds the
configured maximum row count. -/
theorem amp_max_rows_counterexample :
    ¬ ((executeAMPQuery [List.replicate (ampMaxRows + 1) (0 : Nat)]).length
        ≤ ampMaxRows) := by
  have h : executeAMPQuery [List.replicate (ampMaxRows + 1) (0 : Nat)]
      = List.replicate (ampMaxRows + 1) 0 := by
    show consumeBatches [List.replicate (ampMaxRows + 1) (0 : Nat)] [] = _
    simp only [consumeBatches, List.nil_append]
    rw [if_pos]
    rw [List.length_replicate]
    omega
  rw [h, List.length_replicate]
  omega

theorem consumeBatches_le {α : Type} (B : Nat) :
    ∀ (batches : List (List α)) (acc : List α),
      (∀ b ∈ batches, b.length ≤ B) → acc.length ≤ ampMaxRows →
      (consumeBatches batches acc).length ≤ ampMaxRows + B
  | [], acc, _, hacc => by
    simp only [consumeBatches]
    omega
  | b :: bs, acc, hb, hacc => by
    simp only [consumeBatches]
    by_cases hc : (acc ++ b).length > ampMaxRows
    · rw [if_pos hc]
      have hble : b.length ≤ B := hb b (List.mem_cons_self b bs)
      rw [List.length_append]
      omega
    · rw [if_neg hc]
      exact consumeBatches_le B bs (acc ++ b)
        (fun x hx => hb x (List.mem_cons_of_mem _ hx)) (by omega)

/-- C8 (amended): consumption stops only after the first batch that pushes
the accumulated count strictly above `config.ampMaxRows`, so the returned
result can exceed the maximum by at most one batch: when every batch holds
at most B rows, the result holds at most `ampMaxRows + B` rows. -/
theorem amp_rows_bound_amended {α : Type} :
    ∀ (batches : List (List α)) (B : Nat),
      (∀ b ∈ batches, b.length ≤ B) →
      (executeAMPQuery batches).length ≤ ampMaxRows + B :=
  fun batches B hb => consumeBatches_le B batches [] hb (by simp)

/-- Witness for the amended C8 theorem on two one-row batches. -/
theorem amp_rows_bound_amended_witness :
    (∀ b ∈ [[(0 : Nat)], [1]], b.length ≤ 1) ∧
    (executeAMPQuery [[(0 : Nat)], [1]]).length ≤ ampMaxRows + 1 :=
  ⟨by decide, amp_rows_bound_amended [[0], [1]] 1 (by decide)⟩
